import Mathlib

/-!
Shallow embedding of `sugar_odm/backend/postgres.py` (sugarush/sugar-odm).

The Python module defines two classes:

* `PostgresDB` — a process-wide connection-pool cache keyed by the canonical
  serialization of the connection keyword arguments;
* `PostgresDBModel` — a model whose instances are persisted as single `jsonb`
  rows in a per-class table, addressed by the `_id` field embedded in the
  document.

The embedding is functional: the pool cache becomes an explicit `DBState`,
the table of a model class becomes a `List Doc` of stored documents (in row
order), and each coroutine becomes a pure state transition.  External
collaborators that are not part of `src/` (the `serialize`/`update`/constructor
of the generic `Model` framework, `sugar_odm.util.serialize`, and the
`Query` translator) are modelled from the spec; their doc comments say so
explicitly.  `uuid4()` draws are passed in as explicit `fresh` arguments.
-/

set_option autoImplicit false

namespace SugarOdm

/-- A JSON document, projected to the structure the backend inspects: an
association list from field names to (textual) values.  The `_id` text
extraction from `data` is lookup of the key `_id`. -/
abbrev Doc := List (String × String)

/-- A connection-configuration mapping (`**kargs`).  Values are `Option
String`: Python `None` is `none`. -/
abbrev Config := List (String × Option String)

/-- First-match association-list lookup (Python `dict.get`). -/
def lookupKey {α β : Type} [DecidableEq α] : List (α × β) → α → Option β
  | [], _ => none
  | (k, v) :: rest, a => if k = a then some v else lookupKey rest a

/-- `d[k] = v` for a Python dict modelled as an association list: any previous
entry for `k` is dropped and the new binding appended. -/
def setKey {β : Type} (d : List (String × β)) (k : String) (v : β) : List (String × β) :=
  d.filter (fun p => decide (p.1 ≠ k)) ++ [(k, v)]

/-- Python truthiness of an optional string: `None` and the empty string are falsy. -/
def truthy : Option String → Bool
  | none => false
  | some s => !s.isEmpty

/-- Ordered insertion of a configuration entry, by key. -/
def insertSorted (x : String × Option String) : Config → Config
  | [] => [x]
  | y :: rest => if (compare x.1 y.1).isLE then x :: y :: rest else y :: insertSorted x rest

/-- Modelled from the spec: `sugar_odm.util.serialize` (the module
`sugar_odm/util.py` is not under `src/`) renders a configuration mapping in a
canonical form — "keys sorted, stable encoding" — used as the cache
fingerprint.  We model it as sorting the entries by key (insertion sort). -/
def serializeConfig : Config → Config
  | [] => []
  | x :: rest => insertSorted x (serializeConfig rest)

/-- A live connection pool, identified by its creation number (creation
numbers are never reused, so equality of `PoolHandle`s coincides with Python
object identity). -/
structure PoolHandle where
  id : Nat
deriving DecidableEq, Repr

/-- The state of the `PostgresDB` class: the `connections` cache (fingerprint
→ pool, in insertion order), the next pool creation number, and the creation
numbers of pools that have been closed. -/
structure DBState where
  connections : List (Config × PoolHandle)
  nextId : Nat
  closed : List Nat
deriving DecidableEq, Repr

/-- `PostgresDB.connections = { }` at module load. -/
def initialDB : DBState := { connections := [], nextId := 0, closed := [] }

namespace PostgresDB

/-- `PostgresDB.connect(**kargs)`: compute the fingerprint; return the cached
pool when present, otherwise create a pool, cache it, and return it. -/
def connect (s : DBState) (kargs : Config) : PoolHandle × DBState :=
  let key := serializeConfig kargs
  match lookupKey s.connections key with
  | some p => (p, s)
  | none =>
      let p : PoolHandle := ⟨s.nextId⟩
      (p, { s with connections := s.connections ++ [(key, p)], nextId := s.nextId + 1 })

/-- `PostgresDB.close()`: close every cached pool and empty the cache. -/
def close (s : DBState) : DBState :=
  { connections := []
    nextId := s.nextId
    closed := s.closed ++ s.connections.map (fun kp => kp.2.id) }

end PostgresDB

/-- At most one pool per fingerprint: the keys of the cache are pairwise distinct. -/
def cacheKeysNodup (s : DBState) : Prop :=
  (s.connections.map Prod.fst).Nodup

/-- An in-memory model instance: just its `_data` document.  (`self._data` in
the `Model` framework.) -/
structure Entity where
  data : Doc
deriving DecidableEq, Repr

/-- The `_id` text extraction of a stored document. -/
def getId (d : Doc) : Option String := lookupKey d "_id"

/-- `self.id`: the primary-key value of the model. -/
def Entity.id (e : Entity) : Option String := getId e.data

/-- Modelled from the spec: `Model.serialize(computed=True, reset=True)`
(`sugar_odm/model.py` is not under `src/`) "materializes computed fields not
already set" and serializes the entity to a document.  The only computed
field a Postgres model declares is the primary `_id` (see `default_primary`,
with `computed_empty = True`: compute only when empty); its generator draws a
random UUID, passed here as `fresh`. -/
def Entity.serialize (e : Entity) (fresh : String) : Doc :=
  if truthy (getId e.data) then e.data else setKey e.data "_id" fresh

/-- Modelled from the spec: `Model.update` applied to the full row returned
by the database "replaces the in-memory state with the row returned". -/
def Entity.update (_e : Entity) (d : Doc) : Entity := ⟨d⟩

/-- Errors raised by `PostgresDBModel` operations (the code raises bare
`Exception`s; the taxonomy of the spec names them, and we keep those names
as constructors). -/
inductive ModelErr where
  | notFound
  | missingId
  | deleteVerification
  | invalidArgument
deriving DecidableEq, Repr

namespace PostgresDBModel

/-- `SELECT count(*) FROM table WHERE <id extraction> = $1` — the body of
`PostgresDBModel.exists` (named `existsCount` here because `exists` is a
Lean keyword). -/
def existsCount (t : List Doc) (i : String) : Nat :=
  (t.filter (fun d => decide (getId d = some i))).length

/-- `UPDATE table SET data = $1 WHERE <id extraction> = $2`: every row whose
`_id` matches is replaced by the new document. -/
def setRows (t : List Doc) (i : String) (d : Doc) : List Doc :=
  t.map (fun r => if getId r = some i then d else r)

/-- `PostgresDBModel.find_by_id(id)`: select the rows whose `_id` matches;
deserialize the first into a model, or raise (`NotFoundError`) when there is
none. -/
def find_by_id (t : List Doc) (i : String) : Except ModelErr Entity :=
  match t.filter (fun d => decide (getId d = some i)) with
  | r :: _ => .ok ⟨r⟩
  | [] => .error .notFound

/-- Modelled from the spec: `Query(table, spec, limit, skip).to_postgres()`
(`sugar_odm/query.py` is not under `src/`) translates a declarative filter
into `SELECT data FROM table WHERE ... LIMIT limit OFFSET skip`; its
denotation over a table is: keep the rows matching the filter predicate,
skip `skip` of them, return at most `limit`. -/
def execQuery (t : List Doc) (q : Doc → Bool) (limit skip : Nat) : List Doc :=
  ((t.filter q).drop skip).take limit

/-- `PostgresDBModel.find_one(query)`: run the query in `limit=1` mode;
deserialize the first row, or return `None` when there is no row. -/
def find_one (t : List Doc) (q : Doc → Bool) : Option Entity :=
  match execQuery t q 1 0 with
  | r :: _ => some ⟨r⟩
  | [] => none

/-- `PostgresDBModel.find(query, limit=100, skip=0)`: run the query and
yield one deserialized model per returned row, in row order. -/
def find (t : List Doc) (q : Doc → Bool) (limit skip : Nat) : List Entity :=
  (execQuery t q limit skip).map Entity.mk

/-- `PostgresDBModel.save()`: serialize (materializing `_id` when empty);
if `self.id` is truthy and a row with that identifier exists, `UPDATE ...
RETURNING data` and adopt the returned row; otherwise `INSERT ... RETURNING
data` and adopt the returned row.  Returns the updated instance and table. -/
def save (e : Entity) (t : List Doc) (fresh : String) : Entity × List Doc :=
  let data := e.serialize fresh
  match e.id with
  | some i =>
      if !i.isEmpty && decide (0 < existsCount t i) then
        (e.update data, setRows t i data)
      else
        (e.update data, t ++ [data])
  | none => (e.update data, t ++ [data])

/-- The post-`DELETE` verification step of `PostgresDBModel.delete`: clear
`self._data` to `{ }` only when the identifier returned by the `DELETE`
statement equals the identifier of the instance, else raise
(`DeleteVerificationError`). -/
def verifyClear (i : String) (deletedId : Option String) (rest : List Doc) :
    Except ModelErr (Entity × List Doc) :=
  if deletedId = some i then .ok (⟨[]⟩, rest) else .error .deleteVerification

/-- `PostgresDBModel.delete()`: when `self.id` is truthy and a matching row
exists, `DELETE ... RETURNING <id extraction>`, then verify the returned
identifier before clearing the in-memory state; otherwise raise
(`MissingIdentifierError`) without attempting the DELETE. -/
def delete (e : Entity) (t : List Doc) : Except ModelErr (Entity × List Doc) :=
  match e.id with
  | some i =>
      if !i.isEmpty && decide (0 < existsCount t i) then
        let deleted := t.filter (fun d => decide (getId d = some i))
        verifyClear i (deleted.head?.bind getId)
          (t.filter (fun d => !decide (getId d = some i)))
      else .error .missingId
  | none => .error .missingId

/-- The argument to `PostgresDBModel.add`: a dict, a list of dicts, or
anything else. -/
inductive AddArg where
  | one (d : Doc)
  | many (ds : List Doc)
  | invalid
deriving Repr

/-- The result shape of `add`: a single model or a list of models. -/
inductive AddResult where
  | single (e : Entity)
  | multiple (es : List Entity)
deriving DecidableEq, Repr

/-- The loop body of `add` on a list: construct a model from each record and
save it, threading the table; `fresh k` is the UUID draw of the k-th save. -/
def saveAll (fresh : Nat → String) : List Doc → List Doc → Nat → List Entity × List Doc
  | [], t, _ => ([], t)
  | d :: rest, t, k =>
      let p := save ⟨d⟩ t (fresh k)
      let q := saveAll fresh rest p.2 (k + 1)
      (p.1 :: q.1, q.2)

/-- `PostgresDBModel.add(args)`: a dict is constructed and saved, returning
the single model; a list is constructed and saved element by element in
input order, returning the list of models; anything else raises
(`InvalidArgumentError`). -/
def add (arg : AddArg) (t : List Doc) (fresh : Nat → String) :
    Except ModelErr (AddResult × List Doc) :=
  match arg with
  | .one d =>
      let p := save ⟨d⟩ t (fresh 0)
      .ok (.single p.1, p.2)
  | .many ds =>
      let q := saveAll fresh ds t 0
      .ok (.multiple q.1, q.2)
  | .invalid => .error .invalidArgument

end PostgresDBModel

/-- The Python type assigned to a field (`field.type`). -/
inductive PyType where
  | str
  | other
deriving DecidableEq, Repr

/-- The slice of the `Field` declaration (`sugar_odm/field.py`, an external
collaborator) that `default_primary` populates: name, primary flag, type,
whether a computed generator is attached, and `computed_empty` ("compute
this field only when empty"). -/
structure Field where
  name : String
  primary : Bool
  type : PyType
  computed : Bool
  computed_empty : Bool
deriving DecidableEq, Repr

namespace PostgresDBModel

/-- `PostgresDBModel.default_primary()`: the single primary field, named
`_id`, typed `str`, whose computed generator is `lambda: str(uuid4())`, to be
computed only when the field is empty. -/
def default_primary : Field :=
  { name := "_id", primary := true, type := .str, computed := true, computed_empty := true }

/-- `PostgresDBModel.check_primary(primary)`: raise `AttributeError` unless
the primary field is named `_id` and typed `str`. -/
def check_primary (primary : Field) : Except String Unit :=
  if primary.name ≠ "_id" then .error "AttributeError"
  else if primary.type ≠ .str then .error "AttributeError"
  else .ok ()

end PostgresDBModel

/-- The schema state of the database server: which tables and which indexes
exist. -/
structure Server where
  tables : List String
  indexes : List String
deriving DecidableEq, Repr

/-- An error raised by a DDL statement: the asyncpg `DuplicateTableError`
(SQLSTATE 42P07, "relation already exists", raised for both tables and
indexes), or any other failure. -/
inductive PgErr where
  | duplicateTable
  | other (msg : String)
deriving DecidableEq, Repr

/-- `CREATE TABLE t ( data jsonb );` — fails with `DuplicateTableError` when
the table exists. -/
def createTable (sv : Server) (t : String) : Except PgErr Server :=
  if t ∈ sv.tables then .error .duplicateTable
  else .ok { sv with tables := sv.tables ++ [t] }

/-- `CREATE INDEX name ON t USING HASH (<id extraction>);` — fails with
`DuplicateTableError` when the index exists. -/
def createIndex (sv : Server) (name : String) : Except PgErr Server :=
  if name ∈ sv.indexes then .error .duplicateTable
  else .ok { sv with indexes := sv.indexes ++ [name] }

namespace PostgresDBModel

/-- The `try:` block of `_connect`: `CREATE TABLE` then `CREATE INDEX
idx_id_<table>`.  The pair carries the server state reached so far together
with the first error raised, if any (a statement after a failing one is not
executed, but earlier statements keep their effect). -/
def ddlBody (sv : Server) (table : String) : Server × Option PgErr :=
  match createTable sv table with
  | .error e => (sv, some e)
  | .ok sv2 =>
      match createIndex sv2 ("idx_id_" ++ table) with
      | .error e => (sv2, some e)
      | .ok sv3 => (sv3, none)

/-- The `except DuplicateTableError: pass` handler of `_connect`: an
"already exists" failure is swallowed (keeping whatever state the block
reached); any other failure propagates. -/
def ddlCatch (r : Server × Option PgErr) : Except PgErr Server :=
  match r with
  | (sv, none) => .ok sv
  | (sv, some .duplicateTable) => .ok sv
  | (_, some e) => .error e

/-- The class-level state of a concrete `PostgresDBModel` subclass:
`cls._table`, the `__database__` attribute (`none` when the attribute is
absent; otherwise the `name` entry of `__database__`), the `__connection__`
attribute (`none` when absent), and `cls._pool`. -/
structure ClsState where
  table : String
  database : Option (Option String)
  connection : Option Config
  pool : Option PoolHandle
deriving DecidableEq, Repr

/-- The `name` entry of `cls.__database__` after the `hasattr` defaulting: `postgres`
when no `__database__` attribute was declared. -/
def declaredName (cls : ClsState) : Option String :=
  match cls.database with
  | none => some "postgres"
  | some nm => nm

/-- `cls.__connection__` after defaulting and after
the `database` entry is overwritten with the declared database name. -/
def effectiveConnection (cls : ClsState) : Config :=
  setKey (cls.connection.getD []) "database" (declaredName cls)

/-- `PostgresDBModel._connect()` for a concrete subclass: default
`__database__` and `__connection__`, overwrite the `database` key with the
declared database name (`effectiveConnection`), obtain a pool from the cache;
when the pool is the one already held (`cls._pool is pool` — the class state
after the attribute defaulting, whose `_pool` is unchanged) return at once,
otherwise adopt the pool and run the guarded DDL. -/
def connectModel (cls : ClsState) (db : DBState) (sv : Server) :
    Except PgErr (ClsState × DBState × Server) :=
  if cls.pool = some (PostgresDB.connect db (effectiveConnection cls)).1 then
    .ok ({ cls with database := some (declaredName cls)
                    connection := some (effectiveConnection cls) },
         (PostgresDB.connect db (effectiveConnection cls)).2, sv)
  else
    match ddlCatch (ddlBody sv cls.table) with
    | .ok sv2 =>
        .ok ({ cls with database := some (declaredName cls)
                        connection := some (effectiveConnection cls)
                        pool := some (PostgresDB.connect db (effectiveConnection cls)).1 },
             (PostgresDB.connect db (effectiveConnection cls)).2, sv2)
    | .error e => .error e

/-- The description of `save` in the spec, written from its words: serialize
(materializing computed fields); "if the identifier is present and a row with
that identifier already exists it performs an UPDATE matching on the
identifier and replaces the in-memory state with the row returned by the
database, and otherwise it performs an INSERT and adopts the returned row".
(An `UPDATE ... RETURNING data` returns the document just stored, an
`INSERT ... RETURNING data` returns the inserted document.) -/
def save_spec (e : Entity) (t : List Doc) (fresh : String) : Entity × List Doc :=
  let d := e.serialize fresh
  match e.id with
  | some i =>
      if truthy (some i) = true ∧ (∃ r ∈ t, getId r = some i) then
        (⟨d⟩, setRows t i d)
      else (⟨d⟩, t ++ [d])
  | none => (⟨d⟩, t ++ [d])

/-- The description of `delete` in the spec, written from its words: when the
identifier is absent or no row with that identifier exists, fail with
`MissingIdentifierError`; otherwise delete the matching rows and clear the
in-memory state to empty. -/
def delete_spec (e : Entity) (t : List Doc) : Except ModelErr (Entity × List Doc) :=
  match e.id with
  | some i =>
      if truthy (some i) = true ∧ (∃ r ∈ t, getId r = some i) then
        .ok (⟨[]⟩, t.filter (fun d => !decide (getId d = some i)))
      else .error .missingId
  | none => .error .missingId

end PostgresDBModel

namespace PostgresDBModel

theorem existsCount_pos (t : List Doc) (i : String) :
    0 < existsCount t i ↔ ∃ r ∈ t, getId r = some i := by
  induction t with
  | nil => simp [existsCount]
  | cons d rest ih =>
      by_cases h : getId d = some i
      · simp [existsCount, h]
      · simpa [existsCount, h] using ih

/-- C1: `save()` first serializes the entity (materializing computed
fields); when the identifier is present (truthy) and a row with that
identifier exists, it updates the matching rows and replaces the in-memory
state with the row returned by the database, and otherwise it inserts the
serialized document and adopts the returned row. -/
theorem save_meets_spec (e : Entity) (t : List Doc) (fresh : String) :
    save e t fresh = save_spec e t fresh := by
  unfold save save_spec
  cases h : e.id with
  | none => rfl
  | some i =>
      by_cases hemp : i.isEmpty
      · simp [hemp, truthy, Entity.update]
      · by_cases hex : ∃ r ∈ t, getId r = some i
        · simp [hemp, truthy, hex, (existsCount_pos t i).2 hex, Entity.update]
        · have hc : ¬ 0 < existsCount t i := fun hc => hex ((existsCount_pos t i).1 hc)
          simp [hemp, truthy, hex, hc, Entity.update]

/-- C5: `find_one` issues its query in `limit=1` mode and returns the first
matching row deserialized into an entity, or `none` (an absent value, not an
error) when no row matches. -/
theorem find_one_first_match (t : List Doc) (q : Doc → Bool) :
    find_one t q = (t.filter q).head?.map Entity.mk
      ∧ execQuery t q 1 0 = (t.filter q).take 1 := by
  cases h : t.filter q with
  | nil => simp [find_one, execQuery, h]
  | cons r rest => simp [find_one, execQuery, h]

theorem find_filter_id (t : List Doc) (i : String)
    (hex : ∃ r ∈ t, getId r = some i) :
    (List.find? (fun d => decide (getId d = some i)) t).bind getId = some i := by
  induction t with
  | nil => simp at hex
  | cons d rest ih =>
      by_cases h : getId d = some i
      · simp [List.find?, h]
      · have hex2 : ∃ r ∈ rest, getId r = some i := by
          rcases hex with ⟨r, hr, hid⟩
          rcases List.mem_cons.1 hr with rfl | hr2
          · exact absurd hid h
          · exact ⟨r, hr2, hid⟩
        simpa [List.find?, h] using ih hex2

/-- C4: `delete()` fails with `MissingIdentifierError`, leaving the table
untouched, when the identifier is absent (falsy) or no row with that
identifier exists; otherwise it deletes the matching rows and — the returned
identifier of the DELETE being verified against that of the instance — clears the
in-memory state to empty; a verification mismatch yields
`DeleteVerificationError`, never a silent success. -/
theorem delete_meets_spec :
    (∀ (e : Entity) (t : List Doc), delete e t = delete_spec e t)
  ∧ (∀ (i : String) (d : Option String) (rest : List Doc), d ≠ some i →
        verifyClear i d rest = .error .deleteVerification) := by
  constructor
  · intro e t
    unfold delete delete_spec
    cases h : e.id with
    | none => rfl
    | some i =>
        by_cases hemp : i.isEmpty
        · simp [hemp, truthy]
        · by_cases hex : ∃ r ∈ t, getId r = some i
          · simp [hemp, truthy, hex, (existsCount_pos t i).2 hex, verifyClear,
              find_filter_id t i hex]
          · have hc : ¬ 0 < existsCount t i := fun hc => hex ((existsCount_pos t i).1 hc)
            simp [hemp, truthy, hex, hc]
  · intro i d rest hne
    simp [verifyClear, hne]

theorem delete_meets_spec_witness :
    delete ⟨[("_id", "a")]⟩ [[("_id", "a")], [("b", "c")]] = .ok (⟨[]⟩, [[("b", "c")]])
    ∧ verifyClear "a" none [] = .error .deleteVerification := by
  constructor
  · rw [delete_meets_spec.1]
    rfl
  · exact delete_meets_spec.2 "a" none [] (by decide)

/-- C6: `find_by_id(id)` deserializes the first row whose identifier matches
when one exists, and raises the typed `NotFoundError` when none does — an
error, where `find_one` instead reports absence with a non-error `none`. -/
theorem find_by_id_correct :
    (∀ (t : List Doc) (i : String), (∃ x ∈ t, getId x = some i) →
        ∃ r, find_by_id t i = .ok ⟨r⟩ ∧ r ∈ t ∧ getId r = some i
          ∧ (t.filter (fun d => decide (getId d = some i))).head? = some r)
  ∧ (∀ (t : List Doc) (i : String), (¬ ∃ x ∈ t, getId x = some i) →
        find_by_id t i = .error .notFound)
  ∧ (∀ (t : List Doc) (i : String),
        find_by_id t i = .error .notFound
          ↔ find_one t (fun d => decide (getId d = some i)) = none) := by
  refine ⟨?_, ?_, ?_⟩
  · intro t i hex
    cases h : t.filter (fun d => decide (getId d = some i)) with
    | nil =>
        exfalso
        rcases hex with ⟨x, hx, hid⟩
        have : x ∈ t.filter (fun d => decide (getId d = some i)) :=
          List.mem_filter.2 ⟨hx, by simpa using hid⟩
        rw [h] at this
        simp at this
    | cons r rest =>
        have hr : r ∈ t.filter (fun d => decide (getId d = some i)) := by
          rw [h]; exact List.mem_cons_self r rest
        have := List.mem_filter.1 hr
        exact ⟨r, by simp [find_by_id, h], this.1, by simpa using this.2, by simp [h]⟩
  · intro t i hex
    cases h : t.filter (fun d => decide (getId d = some i)) with
    | nil => simp [find_by_id, h]
    | cons r rest =>
        exfalso
        have hr : r ∈ t.filter (fun d => decide (getId d = some i)) := by
          rw [h]; exact List.mem_cons_self r rest
        have := List.mem_filter.1 hr
        exact hex ⟨r, this.1, by simpa using this.2⟩
  · intro t i
    cases h : t.filter (fun d => decide (getId d = some i)) with
    | nil => simp [find_by_id, find_one, execQuery, h]
    | cons r rest => simp [find_by_id, find_one, execQuery, h]

theorem lookupKey_of_forall_ne {α β : Type} [DecidableEq α]
    (l : List (α × β)) (k : α) (v : β) (h : ∀ p ∈ l, p.1 ≠ k) :
    lookupKey (l ++ [(k, v)]) k = some v := by
  induction l with
  | nil => simp [lookupKey]
  | cons p rest ih =>
      have hp : p.1 ≠ k := h p (List.mem_cons_self p rest)
      simp only [List.cons_append, lookupKey, if_neg hp]
      exact ih (fun q hq => h q (List.mem_cons_of_mem p hq))

theorem lookupKey_eq_none {α β : Type} [DecidableEq α]
    (l : List (α × β)) (k : α) :
    lookupKey l k = none ↔ ∀ p ∈ l, p.1 ≠ k := by
  induction l with
  | nil => simp [lookupKey]
  | cons p rest ih =>
      by_cases hp : p.1 = k
      · simp [lookupKey, hp]
      · simp only [lookupKey, if_neg hp, ih]
        constructor
        · intro h q hq
          rcases List.mem_cons.1 hq with rfl | hq2
          · exact hp
          · exact h q hq2
        · intro h q hq
          exact h q (List.mem_cons_of_mem p hq)

theorem lookupKey_setKey {β : Type} (d : List (String × β)) (k : String) (v : β) :
    lookupKey (setKey d k v) k = some v := by
  refine lookupKey_of_forall_ne _ k v ?_
  intro p hp
  have := List.mem_filter.1 hp
  simpa using this.2

theorem getId_setId (d : Doc) (fresh : String) : getId (setKey d "_id" fresh) = some fresh :=
  lookupKey_setKey d "_id" fresh

theorem save_fst (e : Entity) (t : List Doc) (fresh : String) :
    (save e t fresh).1 = ⟨e.serialize fresh⟩ := by
  unfold save
  cases e.id with
  | none => rfl
  | some i =>
      dsimp only
      split
      · rfl
      · rfl

/-- C8: the default primary field is the single primary field, named `_id`
and typed `str` (accepted by `check_primary`), carrying a computed UUID
generator that runs only when the field is empty: serialization materializes
a fresh identifier exactly when the identifier is empty at save time, and an
identifier already set is never regenerated by `save`. -/
theorem primary_policy :
    default_primary.name = "_id"
  ∧ default_primary.type = PyType.str
  ∧ default_primary.primary = true
  ∧ default_primary.computed = true
  ∧ default_primary.computed_empty = true
  ∧ check_primary default_primary = .ok ()
  ∧ (∀ (e : Entity) (fresh : String), truthy e.id = true → e.serialize fresh = e.data)
  ∧ (∀ (e : Entity) (fresh : String), truthy e.id = false →
        getId (e.serialize fresh) = some fresh)
  ∧ (∀ (e : Entity) (t : List Doc) (fresh : String), truthy e.id = true →
        ((save e t fresh).1).id = e.id) := by
  refine ⟨rfl, rfl, rfl, rfl, rfl, rfl, ?_, ?_, ?_⟩
  · intro e fresh h
    unfold Entity.serialize
    rw [show getId e.data = e.id from rfl, h]
    simp
  · intro e fresh h
    unfold Entity.serialize
    rw [show getId e.data = e.id from rfl, h]
    simpa using getId_setId e.data fresh
  · intro e t fresh h
    rw [save_fst]
    show getId (e.serialize fresh) = e.id
    unfold Entity.serialize
    rw [show getId e.data = e.id from rfl, h]
    simp
    rfl

theorem primary_policy_witness :
    check_primary default_primary = .ok ()
    ∧ Entity.serialize ⟨[("_id", "a")]⟩ "u" = [("_id", "a")]
    ∧ getId (Entity.serialize ⟨[("x", "y")]⟩ "u") = some "u"
    ∧ ((save ⟨[("_id", "a")]⟩ [] "u").1).id = some "a" := by
  refine ⟨primary_policy.2.2.2.2.2.1, ?_, ?_, ?_⟩
  · exact primary_policy.2.2.2.2.2.2.1 ⟨[("_id", "a")]⟩ "u" (by decide)
  · exact primary_policy.2.2.2.2.2.2.2.1 ⟨[("x", "y")]⟩ "u" (by decide)
  · rw [primary_policy.2.2.2.2.2.2.2.2 ⟨[("_id", "a")]⟩ [] "u" (by decide)]
    rfl

theorem connect_lookup_some (s : DBState) (c : Config) (p : PoolHandle)
    (hl : lookupKey s.connections (serializeConfig c) = some p) :
    PostgresDB.connect s c = (p, s) := by
  simp only [PostgresDB.connect]
  rw [hl]

theorem connect_lookup_none (s : DBState) (c : Config)
    (hl : lookupKey s.connections (serializeConfig c) = none) :
    PostgresDB.connect s c
      = (⟨s.nextId⟩,
          { connections := s.connections ++ [(serializeConfig c, ⟨s.nextId⟩)]
            nextId := s.nextId + 1
            closed := s.closed }) := by
  simp only [PostgresDB.connect]
  rw [hl]

theorem connect_stable (s : DBState) (c : Config) :
    PostgresDB.connect (PostgresDB.connect s c).2 c = PostgresDB.connect s c := by
  cases hl : lookupKey s.connections (serializeConfig c) with
  | some p => rw [connect_lookup_some s c p hl, connect_lookup_some s c p hl]
  | none =>
      rw [connect_lookup_none s c hl]
      dsimp only
      have hnone := (lookupKey_eq_none s.connections (serializeConfig c)).1 hl
      rw [connect_lookup_some _ c ⟨s.nextId⟩
        (lookupKey_of_forall_ne s.connections (serializeConfig c) ⟨s.nextId⟩ hnone)]

/-- C2: sequential `connect` calls with one configuration return the same
pool handle, leaving the cache unchanged, until `close()` — which closes
every cached pool and empties the cache; the cache never holds two pools for
one fingerprint (an invariant that holds initially and is preserved by both
`connect` and `close`). -/
theorem pool_cache_correct (s : DBState) (c : Config) (h : cacheKeysNodup s) :
    (PostgresDB.connect (PostgresDB.connect s c).2 c).1 = (PostgresDB.connect s c).1
  ∧ (PostgresDB.connect (PostgresDB.connect s c).2 c).2 = (PostgresDB.connect s c).2
  ∧ (PostgresDB.close s).connections = []
  ∧ (∀ kp ∈ s.connections, kp.2.id ∈ (PostgresDB.close s).closed)
  ∧ cacheKeysNodup initialDB
  ∧ cacheKeysNodup (PostgresDB.connect s c).2
  ∧ cacheKeysNodup (PostgresDB.close s) := by
  refine ⟨by rw [connect_stable], by rw [connect_stable], rfl, ?_, ?_, ?_, ?_⟩
  · intro kp hkp
    show kp.2.id ∈ s.closed ++ s.connections.map (fun kp => kp.2.id)
    exact List.mem_append_right _ (List.mem_map_of_mem _ hkp)
  · simp [cacheKeysNodup, initialDB]
  · cases hl : lookupKey s.connections (serializeConfig c) with
    | some p => rw [connect_lookup_some s c p hl]; exact h
    | none =>
        rw [connect_lookup_none s c hl]
        unfold cacheKeysNodup at h ⊢
        dsimp only
        rw [List.map_append, List.nodup_append]
        refine ⟨h, by simp, ?_⟩
        intro k hk hk2
        simp only [List.map_cons, List.map_nil, List.mem_singleton] at hk2
        subst hk2
        rcases List.mem_map.1 hk with ⟨kp, hkp, hfst⟩
        have := (lookupKey_eq_none s.connections (serializeConfig c)).1 hl kp hkp
        exact this hfst
  · simp [cacheKeysNodup, PostgresDB.close]

theorem pool_cache_correct_witness :
    (PostgresDB.connect
        (PostgresDB.connect initialDB [("host", some "h")]).2 [("host", some "h")]).1
      = (PostgresDB.connect initialDB [("host", some "h")]).1
    ∧ cacheKeysNodup (PostgresDB.connect initialDB [("host", some "h")]).2 := by
  exact ⟨(pool_cache_correct initialDB [("host", some "h")]
      (by simp [cacheKeysNodup, initialDB])).1,
    (pool_cache_correct initialDB [("host", some "h")]
      (by simp [cacheKeysNodup, initialDB])).2.2.2.2.2.1⟩

theorem saveAll_spec (fresh : Nat → String) (ds : List Doc) :
    ∀ (t : List Doc) (k : Nat),
      ((saveAll fresh ds t k).1).length = ds.length
      ∧ (∀ (i : Nat) (d0 : Doc), ds[i]? = some d0 →
          ((saveAll fresh ds t k).1)[i]? = some ⟨Entity.serialize ⟨d0⟩ (fresh (k + i))⟩) := by
  induction ds with
  | nil => intro t k; simp [saveAll]
  | cons d rest ih =>
      intro t k
      constructor
      · simp [saveAll, (ih (save ⟨d⟩ t (fresh k)).2 (k + 1)).1]
      · intro i d0 hd
        cases i with
        | zero =>
            simp only [List.getElem?_cons_zero, Option.some_inj] at hd
            subst hd
            simp [saveAll, save_fst]
        | succ j =>
            simp only [List.getElem?_cons_succ] at hd
            have := (ih (save ⟨d⟩ t (fresh k)).2 (k + 1)).2 j d0 hd
            simpa [saveAll, Nat.add_assoc, Nat.add_comm 1 j] using this

/-- C7: `add` on a single record constructs and saves one model and returns
it alone; `add` on a list of N records constructs and saves a model per
record in input order and returns the list of the N models; any other
argument raises `InvalidArgumentError`. -/
theorem add_correct :
    (∀ (t : List Doc) (fresh : Nat → String) (d : Doc),
        add (.one d) t fresh
          = .ok (.single ⟨Entity.serialize ⟨d⟩ (fresh 0)⟩, (save ⟨d⟩ t (fresh 0)).2))
  ∧ (∀ (t : List Doc) (fresh : Nat → String) (ds : List Doc),
        ∃ es t2, add (.many ds) t fresh = .ok (.multiple es, t2)
          ∧ es.length = ds.length
          ∧ (∀ (i : Nat) (d0 : Doc), ds[i]? = some d0 →
              es[i]? = some ⟨Entity.serialize ⟨d0⟩ (fresh i)⟩))
  ∧ (∀ (t : List Doc) (fresh : Nat → String),
        add .invalid t fresh = .error .invalidArgument) := by
  refine ⟨?_, ?_, fun t fresh => rfl⟩
  · intro t fresh d
    simp [add, save_fst]
  · intro t fresh ds
    refine ⟨(saveAll fresh ds t 0).1, (saveAll fresh ds t 0).2, rfl,
      (saveAll_spec fresh ds t 0).1, ?_⟩
    intro i d0 hd
    simpa using (saveAll_spec fresh ds t 0).2 i d0 hd

theorem add_correct_witness :
    add (.one [("a", "1")]) [] (fun _ => "u")
      = .ok (.single ⟨[("a", "1"), ("_id", "u")]⟩, [[("a", "1"), ("_id", "u")]])
    ∧ add .invalid [] (fun _ => "u") = .error .invalidArgument
    ∧ (∃ es t2,
        add (.many [[("b", "2")], [("c", "3")]]) [] (fun k => String.append "u" (toString k))
          = .ok (.multiple es, t2)
        ∧ es.length = 2
        ∧ es[1]? = some ⟨[("c", "3"), ("_id", "u1")]⟩) := by
  refine ⟨?_, add_correct.2.2 [] (fun _ => "u"), ?_⟩
  · rw [add_correct.1 [] (fun _ => "u") [("a", "1")]]
    rfl
  · obtain ⟨es, t2, heq, hlen, hel⟩ :=
      add_correct.2.1 [] (fun k => String.append "u" (toString k)) [[("b", "2")], [("c", "3")]]
    refine ⟨es, t2, heq, hlen, ?_⟩
    rw [hel 1 [("c", "3")] rfl]
    rfl

theorem find_by_id_correct_witness :
    (∃ r, find_by_id [[("x", "y")], [("_id", "a"), ("n", "1")]] "a" = .ok ⟨r⟩
        ∧ r ∈ [[("x", "y")], [("_id", "a"), ("n", "1")]] ∧ getId r = some "a"
        ∧ ([[("x", "y")], [("_id", "a"), ("n", "1")]].filter
            (fun d => decide (getId d = some "a"))).head? = some r)
    ∧ find_by_id [[("x", "y")]] "a" = .error .notFound := by
  constructor
  · exact find_by_id_correct.1 [[("x", "y")], [("_id", "a"), ("n", "1")]] "a"
      ⟨[("_id", "a"), ("n", "1")], by decide, by decide⟩
  · exact find_by_id_correct.2.1 [[("x", "y")]] "a" (by decide)

theorem insertSorted_perm (x : String × Option String) (l : Config) :
    List.Perm (insertSorted x l) (x :: l) := by
  induction l with
  | nil => exact List.Perm.refl _
  | cons y rest ih =>
      unfold insertSorted
      split
      · exact List.Perm.refl _
      · exact (ih.cons y).trans (List.Perm.swap x y rest)

theorem serializeConfig_perm (c : Config) : List.Perm (serializeConfig c) c := by
  induction c with
  | nil => exact List.Perm.refl _
  | cons x rest ih => exact (insertSorted_perm x (serializeConfig rest)).trans (ih.cons x)

theorem filter_filter_same {α : Type} (p : α → Bool) (l : List α) :
    (l.filter p).filter p = l.filter p := by
  induction l with
  | nil => rfl
  | cons a rest ih =>
      by_cases h : p a
      · simp [h, ih]
      · simp [h, ih]

theorem setKey_override {β : Type} (d : List (String × β)) (k : String) (v w : β) :
    setKey (setKey d k v) k w = setKey d k w := by
  unfold setKey
  rw [List.filter_append]
  have h1 : List.filter (fun p => decide (p.1 ≠ k)) [(k, v)] = [] := by simp
  rw [h1, List.append_nil, filter_filter_same]

theorem setKey_idem {β : Type} (d : List (String × β)) (k : String) (v : β) :
    setKey (setKey d k v) k v = setKey d k v :=
  setKey_override d k v v

theorem effectiveConnection_mk (tbl : String) (n : Option String) (c : Config)
    (pl : Option PoolHandle) :
    effectiveConnection ⟨tbl, some n, some (setKey c "database" n), pl⟩
      = setKey c "database" n := by
  show setKey (setKey c "database" n) "database" n = setKey c "database" n
  exact setKey_idem c "database" n

theorem ddl_swallows_existing (sv : Server) (t : String) (h : t ∈ sv.tables) :
    ddlCatch (ddlBody sv t) = .ok sv := by
  simp [ddlBody, createTable, ddlCatch, h]

theorem ddl_total (sv : Server) (t : String) :
    ∃ sv2, ddlCatch (ddlBody sv t) = .ok sv2 := by
  by_cases h1 : t ∈ sv.tables
  · exact ⟨sv, ddl_swallows_existing sv t h1⟩
  · by_cases h2 : ("idx_id_" ++ t) ∈ sv.indexes
    · exact ⟨{ tables := sv.tables ++ [t], indexes := sv.indexes },
        by simp [ddlBody, createTable, createIndex, ddlCatch, h1, h2]⟩
    · exact ⟨{ tables := sv.tables ++ [t], indexes := sv.indexes ++ ["idx_id_" ++ t] },
        by simp [ddlBody, createTable, createIndex, ddlCatch, h1, h2]⟩

theorem connectModel_fix (tbl : String) (n : Option String) (c : Config) (p : PoolHandle)
    (db : DBState) (sv : Server)
    (hdb : PostgresDB.connect db (setKey c "database" n) = (p, db)) :
    connectModel ⟨tbl, some n, some (setKey c "database" n), some p⟩ db sv
      = .ok (⟨tbl, some n, some (setKey c "database" n), some p⟩, db, sv) := by
  unfold connectModel
  rw [effectiveConnection_mk, hdb]
  rw [if_pos rfl]
  rfl

theorem connectModel_total (cls : ClsState) (db : DBState) (sv : Server) :
    ∃ r, connectModel cls db sv = .ok r := by
  unfold connectModel
  split
  · exact ⟨_, rfl⟩
  · obtain ⟨sv2, h2⟩ := ddl_total sv cls.table
    rw [h2]
    exact ⟨_, rfl⟩

theorem connectModel_stable (cls : ClsState) (db : DBState) (sv : Server)
    (r : ClsState × DBState × Server) (h : connectModel cls db sv = .ok r) :
    connectModel r.1 r.2.1 r.2.2 = .ok r := by
  have hst : PostgresDB.connect (PostgresDB.connect db (effectiveConnection cls)).2
      (setKey (cls.connection.getD []) "database" (declaredName cls))
      = ((PostgresDB.connect db (effectiveConnection cls)).1,
         (PostgresDB.connect db (effectiveConnection cls)).2) := by
    rw [show setKey (cls.connection.getD []) "database" (declaredName cls)
        = effectiveConnection cls from rfl]
    rw [connect_stable db (effectiveConnection cls)]
  unfold connectModel at h
  by_cases hcond : cls.pool = some (PostgresDB.connect db (effectiveConnection cls)).1
  · rw [if_pos hcond] at h
    injection h with h2
    subst h2
    dsimp only
    have := connectModel_fix cls.table (declaredName cls) (cls.connection.getD [])
      (PostgresDB.connect db (effectiveConnection cls)).1
      (PostgresDB.connect db (effectiveConnection cls)).2 sv hst
    rw [show ({ cls with database := some (declaredName cls)
                         connection := some (effectiveConnection cls) } : ClsState)
        = ⟨cls.table, some (declaredName cls),
            some (setKey (cls.connection.getD []) "database" (declaredName cls)),
            cls.pool⟩ from rfl]
    rw [hcond]
    exact this
  · rw [if_neg hcond] at h
    cases hddl : ddlCatch (ddlBody sv cls.table) with
    | error e => rw [hddl] at h; exact absurd h (by simp)
    | ok sv2 =>
        rw [hddl] at h
        injection h with h2
        subst h2
        dsimp only
        exact connectModel_fix cls.table (declaredName cls) (cls.connection.getD [])
          (PostgresDB.connect db (effectiveConnection cls)).1
          (PostgresDB.connect db (effectiveConnection cls)).2 sv2 hst

/-- C3: schema bootstrap attempts `CREATE TABLE` then `CREATE INDEX`; an
"already exists" (`DuplicateTableError`) failure is swallowed (a pre-existing
table leaves the schema unchanged and raises nothing), any other failure
propagates through the handler; bootstrap never raises, and re-running
`_connect` on the state it produced — same pool for the entity type —
returns identical state without re-running the DDL. -/
theorem bootstrap_correct :
    (∀ (sv : Server) (t : String), t ∈ sv.tables → ddlCatch (ddlBody sv t) = .ok sv)
  ∧ (∀ (sv : Server) (t : String), ∃ sv2, ddlCatch (ddlBody sv t) = .ok sv2)
  ∧ (∀ (sv : Server) (m : String), ddlCatch (sv, some (.other m)) = .error (.other m))
  ∧ (∀ (cls : ClsState) (db : DBState) (sv : Server), ∃ r, connectModel cls db sv = .ok r)
  ∧ (∀ (cls : ClsState) (db : DBState) (sv : Server) (r : ClsState × DBState × Server),
        connectModel cls db sv = .ok r → connectModel r.1 r.2.1 r.2.2 = .ok r) :=
  ⟨ddl_swallows_existing, ddl_total, fun _ _ => rfl, connectModel_total, connectModel_stable⟩

theorem bootstrap_correct_witness :
    ddlCatch (ddlBody ⟨["w"], []⟩ "w") = .ok ⟨["w"], []⟩
    ∧ ddlCatch (⟨[], []⟩, some (.other "boom")) = .error (.other "boom")
    ∧ connectModel
        ⟨"w", some (some "postgres"), some [("database", some "postgres")], some ⟨0⟩⟩
        ⟨[([("database", some "postgres")], ⟨0⟩)], 1, []⟩
        ⟨["w"], ["idx_id_w"]⟩
      = .ok (⟨"w", some (some "postgres"), some [("database", some "postgres")], some ⟨0⟩⟩,
          ⟨[([("database", some "postgres")], ⟨0⟩)], 1, []⟩, ⟨["w"], ["idx_id_w"]⟩) := by
  refine ⟨bootstrap_correct.1 ⟨["w"], []⟩ "w" (by decide),
    bootstrap_correct.2.2.1 ⟨[], []⟩ "boom", ?_⟩
  exact bootstrap_correct.2.2.2.2
    ⟨"w", some (some "postgres"), some [("database", some "postgres")], some ⟨0⟩⟩
    ⟨[([("database", some "postgres")], ⟨0⟩)], 1, []⟩
    ⟨["w"], ["idx_id_w"]⟩
    (⟨"w", some (some "postgres"), some [("database", some "postgres")], some ⟨0⟩⟩,
      ⟨[([("database", some "postgres")], ⟨0⟩)], 1, []⟩, ⟨["w"], ["idx_id_w"]⟩)
    (by rfl)

/-- C10: `_connect` always overwrites the `database` key of the declared
connection configuration with the declared database name (`postgres` when no
`__database__` attribute is declared) before the pool is looked up or
created: a caller-supplied `database` value changes nothing, the effective
configuration maps `database` to the declared name, and the canonical
fingerprint contains exactly one `database` entry, carrying the declared
name. -/
theorem database_overwrite (cls : ClsState) (c : Config) (v : Option String)
    (db : DBState) (sv : Server) :
    connectModel { cls with connection := some (setKey c "database" v) } db sv
      = connectModel { cls with connection := some c } db sv
  ∧ lookupKey (effectiveConnection cls) "database" = some (declaredName cls)
  ∧ (serializeConfig (effectiveConnection cls)).filter (fun p => decide (p.1 = "database"))
      = [("database", declaredName cls)]
  ∧ declaredName { cls with database := none } = some "postgres" := by
  refine ⟨?_, ?_, ?_, rfl⟩
  · have heff : effectiveConnection { cls with connection := some (setKey c "database" v) }
        = effectiveConnection { cls with connection := some c } := by
      show setKey (setKey c "database" v) "database" (declaredName cls)
        = setKey c "database" (declaredName cls)
      exact setKey_override c "database" v (declaredName cls)
    unfold connectModel
    rw [heff]
    rfl
  · exact lookupKey_setKey (cls.connection.getD []) "database" (declaredName cls)
  · have hperm : List.Perm
        ((serializeConfig (effectiveConnection cls)).filter
          (fun p => decide (p.1 = "database")))
        ((effectiveConnection cls).filter (fun p => decide (p.1 = "database"))) :=
      (serializeConfig_perm (effectiveConnection cls)).filter _
    have hec : (effectiveConnection cls).filter (fun p => decide (p.1 = "database"))
        = [("database", declaredName cls)] := by
      show (setKey (cls.connection.getD []) "database" (declaredName cls)).filter
          (fun p => decide (p.1 = "database")) = _
      unfold setKey
      rw [List.filter_append]
      have h0 : ((cls.connection.getD []).filter
          (fun p => decide (p.1 ≠ "database"))).filter
          (fun p => decide (p.1 = "database")) = [] := by
        rw [List.filter_eq_nil_iff]
        intro a ha
        have := List.mem_filter.1 ha
        simpa using of_decide_eq_true this.2
      rw [h0, List.nil_append]
      rfl
    rw [hec] at hperm
    exact List.perm_singleton.1 hperm

end PostgresDBModel

end SugarOdm
